import Mathlib

/-!
Shallow embedding of the `loopp` event-loop core (epoll and select backends)
and verification of its specification claims.

Callbacks (`std::function` values) are modelled as opaque tokens (`Nat`): the
loop never inspects a callback, it only stores, copies and hands them back.
The registration table `event_callbacks_` (an `unordered_map` from fd to an
`unordered_map` from event type to callback) is modelled as an association
list with unique keys; iteration order of the hash map is modelled by list
order.  Kernel syscalls that can fail (`epoll_ctl`, `write` on the wakeup
channel) take an injected outcome parameter, since their success is decided
by the environment.
-/

namespace Loopp

/-- Event types the loop can monitor (`EventType` in `event_loop.hpp`). -/
inductive EventType where
  | READ
  | WRITE
deriving DecidableEq, Repr

/-- Callbacks are opaque tokens: the loop stores and returns them unmodified. -/
abbrev Cb := Nat

/-- The registration table: fd → (event type → callback), as an assoc list. -/
abbrev Table := List (Int × List (EventType × Cb))

/-- First-match lookup of a descriptor's sub-map (`event_callbacks_[fd]`). -/
def lookupFd : Table → Int → Option (List (EventType × Cb))
  | [], _ => none
  | (f, subs) :: rest, fd => if f = fd then some subs else lookupFd rest fd

/-- `event_callbacks_.contains(fd)`. -/
def containsFd (t : Table) (fd : Int) : Bool :=
  (lookupFd t fd).isSome

/-- First-match lookup inside a sub-map (`event_callbacks_[fd][type]`). -/
def subLookup : List (EventType × Cb) → EventType → Option Cb
  | [], _ => none
  | (ty0, cb0) :: rest, ty => if ty0 = ty then some cb0 else subLookup rest ty

/-- `event_callbacks_[fd].contains(type)`. -/
def subContains (subs : List (EventType × Cb)) (ty : EventType) : Bool :=
  (subLookup subs ty).isSome

/-- `event_callbacks_.contains(fd) && event_callbacks_[fd].contains(type)`. -/
def containsPair (t : Table) (fd : Int) (ty : EventType) : Bool :=
  match lookupFd t fd with
  | some subs => subContains subs ty
  | none => false

/-- `unordered_map::operator[]` assignment inside a sub-map: replace the
callback if the type is present, otherwise append a new entry. -/
def subInsert : List (EventType × Cb) → EventType → Cb → List (EventType × Cb)
  | [], ty, cb => [(ty, cb)]
  | (ty0, cb0) :: rest, ty, cb =>
    if ty0 = ty then (ty0, cb) :: rest else (ty0, cb0) :: subInsert rest ty cb

/-- `event_callbacks_[fd][type] = callback`: update the descriptor's sub-map
in place, or append a fresh entry when the descriptor is absent. -/
def insertCb : Table → Int → EventType → Cb → Table
  | [], fd, ty, cb => [(fd, [(ty, cb)])]
  | (f, subs) :: rest, fd, ty, cb =>
    if f = fd then (f, subInsert subs ty cb) :: rest
    else (f, subs) :: insertCb rest fd ty cb

/-- `event_callbacks_[fd].erase(type)`: drop the entry for `ty`. -/
def eraseTy : List (EventType × Cb) → EventType → List (EventType × Cb)
  | [], _ => []
  | (ty0, cb0) :: rest, ty => if ty0 = ty then rest else (ty0, cb0) :: eraseTy rest ty

/-- Erase `ty` from the sub-map of `fd`, keeping the `fd` entry itself. -/
def eraseTypeAt : Table → Int → EventType → Table
  | [], _, _ => []
  | (f, subs) :: rest, fd, ty =>
    if f = fd then (f, eraseTy subs ty) :: rest
    else (f, subs) :: eraseTypeAt rest fd ty

/-- `event_callbacks_.erase(fd)`: drop the descriptor's entry entirely. -/
def eraseFd : Table → Int → Table
  | [], _ => []
  | (f, subs) :: rest, fd => if f = fd then rest else (f, subs) :: eraseFd rest fd

/-- Linux `EPOLLIN`. -/
def EPOLLIN : Nat := 1
/-- Linux `EPOLLOUT`. -/
def EPOLLOUT : Nat := 4
/-- Linux `EPOLLERR`. -/
def EPOLLERR : Nat := 8
/-- Linux `EPOLLHUP`. -/
def EPOLLHUP : Nat := 16
/-- Linux `EAGAIN` (= `EWOULDBLOCK`). -/
def EAGAIN : Nat := 11
/-- Linux `EMFILE`. -/
def EMFILE : Nat := 24
/-- Linux `FD_SETSIZE`. -/
def FD_SETSIZE : Nat := 1024

/-- The epoll bit contributed by one event type. -/
def typeBit : EventType → Nat
  | .READ => EPOLLIN
  | .WRITE => EPOLLOUT

/-- The interest mask of a sub-map: OR of the bits of its registered types
(the `events |= ...` loops in `add_fd` / `remove_fd`). -/
def maskOf (subs : List (EventType × Cb)) : Nat :=
  subs.foldl (fun m p => m ||| typeBit p.1) 0

/-- The interest mask a descriptor has in a table (OR over its registered
interests; `0` when the descriptor is absent). -/
def fdMask (t : Table) (fd : Int) : Nat :=
  maskOf ((lookupFd t fd).getD [])

/-- Outcome of an `epoll_ctl` call, injected by the environment. -/
inductive CtlRes where
  | ok
  | err
deriving DecidableEq, Repr

/-- Outcome of a `write` to the wakeup channel: success, or failure with the
given `errno` value. -/
inductive WriteRes where
  | ok
  | err (e : Nat)
deriving DecidableEq, Repr

/-- An `epoll_ctl` invocation: `ADD`/`MOD` carry an interest mask, `DEL`
carries a null payload. -/
inductive EpollCtl where
  | add (fd : Int) (mask : Nat)
  | mod (fd : Int) (mask : Nat)
  | del (fd : Int)
deriving DecidableEq, Repr

/-- Replace the kernel-side mask of `fd` (effect of a successful `MOD`). -/
def setMask : List (Int × Nat) → Int → Nat → List (Int × Nat)
  | [], _, _ => []
  | (f, m0) :: rest, fd, m => if f = fd then (f, m) :: rest else (f, m0) :: setMask rest fd m

/-- Remove `fd` from the kernel registrations (effect of a successful `DEL`). -/
def delReg : List (Int × Nat) → Int → List (Int × Nat)
  | [], _ => []
  | (f, m0) :: rest, fd => if f = fd then rest else (f, m0) :: delReg rest fd

/-- Effect of a successful `epoll_ctl` on the kernel's registration list. -/
def applyCtl (k : List (Int × Nat)) : EpollCtl → List (Int × Nat)
  | .add fd m => k ++ [(fd, m)]
  | .mod fd m => setMask k fd m
  | .del fd => delReg k fd

/-- State of `EventLoopEpoll`: the registration table, the kernel-side epoll
registrations, the running flag, the number of pending wakeup writes on the
eventfd, and the wakeup descriptor. -/
structure EpollState where
  table : Table
  kernel : List (Int × Nat)
  running : Bool
  wakeupCount : Nat
  wakeupFd : Int
deriving DecidableEq, Repr

/-- Epoll loop right after the constructor: empty table, the wakeup eventfd
registered for `EPOLLIN`, not running. -/
def initEpoll (wfd : Int) : EpollState :=
  { table := [], kernel := [(wfd, EPOLLIN)], running := false,
    wakeupCount := 0, wakeupFd := wfd }

/-- `EventLoopEpoll::is_running`. -/
def is_running (s : EpollState) : Bool :=
  s.running

/-- `EventLoopEpoll::wakeup`: write 1 to the eventfd; failure with `EAGAIN`
(`EWOULDBLOCK`) still counts as success. -/
def wakeupE (wk : WriteRes) (s : EpollState) : Bool × EpollState :=
  match wk with
  | .ok => (true, { s with wakeupCount := s.wakeupCount + 1 })
  | .err e => (decide (e = EAGAIN), s)

/-- Result of an epoll `add_fd` / `remove_fd`: the returned boolean, the new
state, and the `epoll_ctl` invocation issued (if any). -/
structure EpollRet where
  ok : Bool
  state : EpollState
  ctlIssued : Option EpollCtl
deriving DecidableEq, Repr

/-- `EventLoopEpoll::add_fd`.  `ctl` is the injected outcome of the
`epoll_ctl` call, `wk` of the wakeup write. -/
def add_fd (s : EpollState) (fd : Int) (ty : EventType) (cb : Cb)
    (ctl : CtlRes) (wk : WriteRes) : EpollRet :=
  if containsPair s.table fd ty then ⟨true, s, none⟩
  else
    let existing := match lookupFd s.table fd with
      | some subs => maskOf subs
      | none => 0
    let events := existing ||| typeBit ty
    let op := if containsFd s.table fd then EpollCtl.mod fd events else EpollCtl.add fd events
    match ctl with
    | .err => ⟨false, s, some op⟩
    | .ok =>
      let s1 := { s with kernel := applyCtl s.kernel op,
                         table := insertCb s.table fd ty cb }
      let r := wakeupE wk s1
      ⟨r.1, r.2, some op⟩

/-- `EventLoopEpoll::remove_fd`.  Mirrors the source: the callback entry is
erased from the table before `epoll_ctl` runs, and on `epoll_ctl` failure the
function returns with the table already mutated. -/
def remove_fd (s : EpollState) (fd : Int) (ty : EventType)
    (ctl : CtlRes) (wk : WriteRes) : EpollRet :=
  if !containsPair s.table fd ty then ⟨true, s, none⟩
  else
    let t1 := eraseTypeAt s.table fd ty
    let subs1 := (lookupFd t1 fd).getD []
    if subs1.isEmpty then
      match ctl with
      | .err => ⟨false, { s with table := t1 }, some (EpollCtl.del fd)⟩
      | .ok =>
        let s1 := { s with table := eraseFd t1 fd,
                           kernel := applyCtl s.kernel (EpollCtl.del fd) }
        let r := wakeupE wk s1
        ⟨r.1, r.2, some (EpollCtl.del fd)⟩
    else
      let events := maskOf subs1
      match ctl with
      | .err => ⟨false, { s with table := t1 }, some (EpollCtl.mod fd events)⟩
      | .ok =>
        let s1 := { s with table := t1,
                           kernel := applyCtl s.kernel (EpollCtl.mod fd events) }
        let r := wakeupE wk s1
        ⟨r.1, r.2, some (EpollCtl.mod fd events)⟩

/-- `EventLoopEpoll::stop`: `is_running_.exchange(false)` then, only when the
flag was previously set, the wakeup poke. -/
def stop (s : EpollState) (wk : WriteRes) : Bool × EpollState :=
  let s0 := { s with running := false }
  if s.running then wakeupE wk s0 else (true, s0)

/-- One entry of the dispatcher's collection loop in `EventLoopEpoll::start`:
given one `epoll_event` (fd and fired mask), the `(fd, type, callback)`
triples appended to `ready_events`. -/
def collectOne (table : Table) (wfd : Int) (e : Int × Nat) :
    List (Int × EventType × Cb) :=
  if e.1 = wfd then []
  else match lookupFd table e.1 with
    | none => []
    | some subs =>
      (if e.2 &&& EPOLLIN ≠ 0 then
        match subLookup subs EventType.READ with
        | some cb => [(e.1, EventType.READ, cb)]
        | none => []
      else []) ++
      (if e.2 &&& EPOLLOUT ≠ 0 then
        match subLookup subs EventType.WRITE with
        | some cb => [(e.1, EventType.WRITE, cb)]
        | none => []
      else [])

/-- The full `ready_events` vector built by `EventLoopEpoll::start` for a
batch of `epoll_wait` results, in collection order; the dispatch loop then
invokes exactly this list front to back. -/
def collectReady (table : Table) (wfd : Int) : List (Int × Nat) → List (Int × EventType × Cb)
  | [] => []
  | e :: rest => collectOne table wfd e ++ collectReady table wfd rest

/-- `FD_SET`: fd sets are modelled as lists of member descriptors. -/
def fdSet (s : List Int) (fd : Int) : List Int :=
  if fd ∈ s then s else s ++ [fd]

/-- `FD_CLR`. -/
def fdClr (s : List Int) (fd : Int) : List Int :=
  s.filter (fun f => decide (f ≠ fd))

/-- `FD_ISSET`. -/
def fdIsSet (s : List Int) (fd : Int) : Bool :=
  s.any (fun f => decide (f = fd))

/-- State of `EventLoopSelect`: the registration table, the two interest
bitmaps, the multiset of registered descriptors (`fds_`), the running flag,
the bytes pending in the wakeup pipe, the pipe's read end, and the
thread-local `errno`. -/
structure SelectState where
  table : Table
  readSet : List Int
  writeSet : List Int
  fds : List Int
  running : Bool
  wakeupPipe : Nat
  wakeupRead : Int
  errno : Nat
deriving DecidableEq, Repr

/-- Select loop right after the constructor: empty table, the wakeup pipe's
read end in the read bitmap and in `fds_`, not running. -/
def initSelect (rfd : Int) : SelectState :=
  { table := [], readSet := [rfd], writeSet := [], fds := [rfd],
    running := false, wakeupPipe := 0, wakeupRead := rfd, errno := 0 }

/-- `EventLoopSelect::wakeup`: write one byte to the pipe; failure with
`EAGAIN` (`EWOULDBLOCK`) still counts as success. -/
def wakeupS (wk : WriteRes) (s : SelectState) : Bool × SelectState :=
  match wk with
  | .ok => (true, { s with wakeupPipe := s.wakeupPipe + 1 })
  | .err e => (decide (e = EAGAIN), { s with errno := e })

/-- `EventLoopSelect::add_fd`.  `wk` is the injected outcome of the wakeup
write. -/
def add_fd_sel (s : SelectState) (fd : Int) (ty : EventType) (cb : Cb)
    (wk : WriteRes) : Bool × SelectState :=
  if containsPair s.table fd ty then (true, s)
  else if (FD_SETSIZE : Int) ≤ fd then (false, { s with errno := EMFILE })
  else
    let s1 := match ty with
      | .READ => { s with readSet := fdSet s.readSet fd }
      | .WRITE => { s with writeSet := fdSet s.writeSet fd }
    let s2 := { s1 with table := insertCb s1.table fd ty cb, fds := s1.fds ++ [fd] }
    wakeupS wk s2

/-- `EventLoopSelect::remove_fd`. -/
def remove_fd_sel (s : SelectState) (fd : Int) (ty : EventType)
    (wk : WriteRes) : Bool × SelectState :=
  if !containsPair s.table fd ty then (true, s)
  else
    let s1 := match ty with
      | .READ => { s with readSet := fdClr s.readSet fd }
      | .WRITE => { s with writeSet := fdClr s.writeSet fd }
    let t1 := eraseTypeAt s1.table fd ty
    let t2 := if ((lookupFd t1 fd).getD []).isEmpty then eraseFd t1 fd else t1
    let s2 := { s1 with table := t2, fds := s1.fds.erase fd }
    wakeupS wk s2

/-- `EventLoopSelect::stop`: `is_running_.exchange(false)` then, only when
the flag was previously set, a raw `write` to the pipe — note the source
returns `write(...) != -1` here, with no `EAGAIN` exemption. -/
def stop_sel (s : SelectState) (wk : WriteRes) : Bool × SelectState :=
  let s0 := { s with running := false }
  if s.running then
    match wk with
    | .ok => (true, { s0 with wakeupPipe := s0.wakeupPipe + 1 })
    | .err e => (false, { s0 with errno := e })
  else (true, s0)

/-- One entry of the dispatcher's collection loop in
`EventLoopSelect::start`: for one table entry, the `(fd, type, callback)`
triples appended to `ready_events` given the ready bitmaps returned by
`select`. -/
def collectOneSel (readReady writeReady : List Int)
    (p : Int × List (EventType × Cb)) : List (Int × EventType × Cb) :=
  (if fdIsSet readReady p.1 then
    match subLookup p.2 EventType.READ with
    | some cb => [(p.1, EventType.READ, cb)]
    | none => []
  else []) ++
  (if fdIsSet writeReady p.1 then
    match subLookup p.2 EventType.WRITE with
    | some cb => [(p.1, EventType.WRITE, cb)]
    | none => []
  else [])

/-- The full `ready_events` vector built by `EventLoopSelect::start`: the
table is traversed in iteration order and each entry contributes its READ
then WRITE triple; the dispatch loop then invokes exactly this list front to
back. -/
def collectReadySel (readReady writeReady : List Int) :
    Table → List (Int × EventType × Cb)
  | [] => []
  | p :: rest =>
    collectOneSel readReady writeReady p ++ collectReadySel readReady writeReady rest

/-- The invariant that no descriptor in the table has an empty sub-map. -/
def noEmptySub (t : Table) : Prop :=
  ∀ p ∈ t, p.2 ≠ []

instance (t : Table) : Decidable (noEmptySub t) :=
  List.decidableBAll _ t

/-- The sequence of event types dispatched for descriptor `fd`, in invocation
order, within one `ready_events` batch. -/
def typesFor (fd : Int) (l : List (Int × EventType × Cb)) : List EventType :=
  (l.filter fun t => decide (t.1 = fd)).map fun t => t.2.1

theorem wakeupE_table (wk : WriteRes) (s : EpollState) :
    (wakeupE wk s).2.table = s.table := by
  cases wk <;> rfl

theorem wakeupE_kernel (wk : WriteRes) (s : EpollState) :
    (wakeupE wk s).2.kernel = s.kernel := by
  cases wk <;> rfl

theorem wakeupS_table (wk : WriteRes) (s : SelectState) :
    (wakeupS wk s).2.table = s.table := by
  cases wk <;> rfl

theorem lookupFd_insertCb (t : Table) (fd : Int) (ty : EventType) (cb : Cb) :
    lookupFd (insertCb t fd ty cb) fd = some (subInsert ((lookupFd t fd).getD []) ty cb) := by
  induction t with
  | nil => simp [insertCb, lookupFd, subInsert]
  | cons p rest ih =>
    obtain ⟨f, subs⟩ := p
    by_cases h : f = fd
    · subst h
      simp [insertCb, lookupFd]
    · simp [insertCb, lookupFd, h, ih]

theorem subInsert_of_not_contains (subs : List (EventType × Cb)) (ty : EventType) (cb : Cb)
    (h : subContains subs ty = false) : subInsert subs ty cb = subs ++ [(ty, cb)] := by
  induction subs with
  | nil => rfl
  | cons q rest ih =>
    obtain ⟨ty0, cb0⟩ := q
    by_cases hq : ty0 = ty
    · subst hq
      simp [subContains, subLookup] at h
    · simp only [subContains, subLookup, hq, if_false] at h
      simp [subInsert, hq, ih h]

theorem subContains_subInsert (subs : List (EventType × Cb)) (ty : EventType) (cb : Cb) :
    subContains (subInsert subs ty cb) ty = true := by
  induction subs with
  | nil => simp [subInsert, subContains, subLookup]
  | cons q rest ih =>
    obtain ⟨ty0, cb0⟩ := q
    by_cases hq : ty0 = ty
    · subst hq
      simp [subInsert, subContains, subLookup]
    · simp [subInsert, hq, subContains, subLookup, subContains] at ih ⊢
      exact ih

theorem containsPair_insertCb (t : Table) (fd : Int) (ty : EventType) (cb : Cb) :
    containsPair (insertCb t fd ty cb) fd ty = true := by
  simp [containsPair, lookupFd_insertCb, subContains_subInsert]

theorem lookupFd_eraseTypeAt (t : Table) (fd : Int) (ty : EventType) :
    lookupFd (eraseTypeAt t fd ty) fd = (lookupFd t fd).map (fun subs => eraseTy subs ty) := by
  induction t with
  | nil => simp [eraseTypeAt, lookupFd]
  | cons p rest ih =>
    obtain ⟨f, subs⟩ := p
    by_cases h : f = fd
    · subst h
      simp [eraseTypeAt, lookupFd]
    · simp [eraseTypeAt, lookupFd, h, ih]

theorem maskOf_shift (l : List (EventType × Cb)) (m : Nat) :
    l.foldl (fun a p => a ||| typeBit p.1) m = m ||| maskOf l := by
  induction l generalizing m with
  | nil => simp [maskOf]
  | cons q rest ih =>
    rw [maskOf, List.foldl_cons, List.foldl_cons, ih, ih, Nat.zero_or, Nat.or_assoc]

theorem maskOf_append (l : List (EventType × Cb)) (ty : EventType) (cb : Cb) :
    maskOf (l ++ [(ty, cb)]) = maskOf l ||| typeBit ty := by
  simp only [maskOf, List.foldl_append, List.foldl_cons, List.foldl_nil]

theorem or_ne_zero_of_testBit (m n i : Nat) (hm : m.testBit i = true) : m ||| n ≠ 0 := by
  intro hc
  have h := congrArg (fun v => Nat.testBit v i) hc
  simp [Nat.testBit_or, hm] at h

theorem maskOf_eq_zero_iff (l : List (EventType × Cb)) : maskOf l = 0 ↔ l = [] := by
  cases l with
  | nil => simp [maskOf]
  | cons q rest =>
    rw [maskOf, List.foldl_cons, maskOf_shift, Nat.zero_or]
    constructor
    · intro h
      exfalso
      cases h1 : q.1 with
      | READ =>
        refine or_ne_zero_of_testBit (typeBit q.1) (maskOf rest) 0 ?_ h
        rw [h1]
        decide
      | WRITE =>
        refine or_ne_zero_of_testBit (typeBit q.1) (maskOf rest) 2 ?_ h
        rw [h1]
        decide
    · intro h
      exact absurd h (List.cons_ne_nil q rest)

theorem subInsert_ne_nil (subs : List (EventType × Cb)) (ty : EventType) (cb : Cb) :
    subInsert subs ty cb ≠ [] := by
  cases subs with
  | nil => simp [subInsert]
  | cons q rest =>
    simp only [subInsert]
    split <;> simp

theorem noEmptySub_insertCb (t : Table) (fd : Int) (ty : EventType) (cb : Cb)
    (h : noEmptySub t) : noEmptySub (insertCb t fd ty cb) := by
  induction t with
  | nil =>
    intro p hp
    simp only [insertCb, List.mem_singleton] at hp
    subst hp
    simp
  | cons q rest ih =>
    obtain ⟨f, subs⟩ := q
    rw [noEmptySub, List.forall_mem_cons] at h
    by_cases hf : f = fd
    · subst hf
      simp only [insertCb, if_pos rfl]
      intro p hp
      rcases List.mem_cons.mp hp with rfl | hp'
      · exact subInsert_ne_nil subs ty cb
      · exact h.2 p hp'
    · simp only [insertCb, if_neg hf]
      intro p hp
      rcases List.mem_cons.mp hp with rfl | hp'
      · exact h.1
      · exact ih h.2 p hp'

theorem noEmptySub_eraseFd_eraseTypeAt (t : Table) (fd : Int) (ty : EventType)
    (h : noEmptySub t) :
    noEmptySub (eraseFd (eraseTypeAt t fd ty) fd) := by
  induction t with
  | nil =>
    intro p hp
    simp [eraseTypeAt, eraseFd] at hp
  | cons q rest ih =>
    obtain ⟨f, subs⟩ := q
    rw [noEmptySub, List.forall_mem_cons] at h
    by_cases hf : f = fd
    · subst hf
      simp only [eraseTypeAt, if_pos rfl, eraseFd, if_pos rfl]
      exact h.2
    · simp only [eraseTypeAt, if_neg hf, eraseFd, if_neg hf]
      intro p hp
      rcases List.mem_cons.mp hp with rfl | hp'
      · exact h.1
      · exact ih h.2 p hp'

theorem noEmptySub_eraseTypeAt (t : Table) (fd : Int) (ty : EventType)
    (h : noEmptySub t)
    (hne : ((lookupFd (eraseTypeAt t fd ty) fd).getD []).isEmpty = false) :
    noEmptySub (eraseTypeAt t fd ty) := by
  induction t with
  | nil =>
    intro p hp
    simp [eraseTypeAt] at hp
  | cons q rest ih =>
    obtain ⟨f, subs⟩ := q
    rw [noEmptySub, List.forall_mem_cons] at h
    by_cases hf : f = fd
    · subst hf
      simp only [eraseTypeAt, if_pos rfl, lookupFd, Option.getD_some] at hne
      simp only [eraseTypeAt, if_pos rfl]
      intro p hp
      rcases List.mem_cons.mp hp with rfl | hp'
      · exact List.isEmpty_eq_false.mp hne
      · exact h.2 p hp'
    · simp only [eraseTypeAt, if_neg hf, lookupFd, if_neg hf] at hne
      simp only [eraseTypeAt, if_neg hf]
      intro p hp
      rcases List.mem_cons.mp hp with rfl | hp'
      · exact h.1
      · exact ih h.2 hne p hp'

theorem typesFor_append (fd : Int) (a b : List (Int × EventType × Cb)) :
    typesFor fd (a ++ b) = typesFor fd a ++ typesFor fd b := by
  simp [typesFor, List.filter_append]

theorem typesFor_eq_nil (fd : Int) (l : List (Int × EventType × Cb))
    (h : ∀ t ∈ l, t.1 ≠ fd) : typesFor fd l = [] := by
  simp only [typesFor, List.map_eq_nil_iff, List.filter_eq_nil_iff]
  intro t ht
  simp [h t ht]

theorem mem_collectOne_fst (table : Table) (wfd : Int) (e : Int × Nat)
    (t : Int × EventType × Cb) (h : t ∈ collectOne table wfd e) : t.1 = e.1 := by
  unfold collectOne at h
  split at h
  · simp at h
  · split at h
    · simp at h
    · rw [List.mem_append] at h
      rcases h with h | h <;>
        · split at h
          · split at h <;> simp_all
          · simp at h

theorem mem_collectReady_fst (table : Table) (wfd : Int) (evs : List (Int × Nat))
    (t : Int × EventType × Cb) (h : t ∈ collectReady table wfd evs) :
    t.1 ∈ evs.map Prod.fst := by
  induction evs with
  | nil => simp [collectReady] at h
  | cons e rest ih =>
    simp only [collectReady, List.mem_append] at h
    rcases h with h | h
    · simp [mem_collectOne_fst table wfd e t h]
    · simp [ih h]

theorem typesFor_collectOne (table : Table) (wfd : Int) (e : Int × Nat) (fd : Int) :
    List.Sublist (typesFor fd (collectOne table wfd e)) [EventType.READ, EventType.WRITE] := by
  unfold collectOne
  split
  · simp [typesFor]
  · split
    · simp [typesFor]
    · rw [typesFor_append]
      have hr : ∀ l : List (Int × EventType × Cb),
          (l = [] ∨ ∃ cb, l = [(e.1, EventType.READ, cb)]) →
          ∀ w : List (Int × EventType × Cb),
          (w = [] ∨ ∃ cb, w = [(e.1, EventType.WRITE, cb)]) →
          List.Sublist (typesFor fd l ++ typesFor fd w) [EventType.READ, EventType.WRITE] := by
        rintro l (rfl | ⟨cbr, rfl⟩) w (rfl | ⟨cbw, rfl⟩) <;>
          simp only [typesFor, List.filter] <;>
          by_cases hfd : e.1 = fd <;>
            simp [hfd, List.nil_sublist, List.Sublist.refl]
      refine hr _ ?_ _ ?_
      · split
        · split
          · exact Or.inr ⟨_, rfl⟩
          · exact Or.inl rfl
        · exact Or.inl rfl
      · split
        · split
          · exact Or.inr ⟨_, rfl⟩
          · exact Or.inl rfl
        · exact Or.inl rfl

theorem mem_collectOneSel_fst (rr ww : List Int) (p : Int × List (EventType × Cb))
    (t : Int × EventType × Cb) (h : t ∈ collectOneSel rr ww p) : t.1 = p.1 := by
  unfold collectOneSel at h
  rw [List.mem_append] at h
  rcases h with h | h <;>
    · split at h
      · split at h <;> simp_all
      · simp at h

theorem mem_collectReadySel_fst (rr ww : List Int) (table : Table)
    (t : Int × EventType × Cb) (h : t ∈ collectReadySel rr ww table) :
    t.1 ∈ table.map Prod.fst := by
  induction table with
  | nil => simp [collectReadySel] at h
  | cons p rest ih =>
    simp only [collectReadySel, List.mem_append] at h
    rcases h with h | h
    · simp [mem_collectOneSel_fst rr ww p t h]
    · simp [ih h]

theorem typesFor_collectOneSel (rr ww : List Int) (p : Int × List (EventType × Cb)) (fd : Int) :
    List.Sublist (typesFor fd (collectOneSel rr ww p)) [EventType.READ, EventType.WRITE] := by
  unfold collectOneSel
  rw [typesFor_append]
  have hr : ∀ l : List (Int × EventType × Cb),
      (l = [] ∨ ∃ cb, l = [(p.1, EventType.READ, cb)]) →
      ∀ w : List (Int × EventType × Cb),
      (w = [] ∨ ∃ cb, w = [(p.1, EventType.WRITE, cb)]) →
      List.Sublist (typesFor fd l ++ typesFor fd w) [EventType.READ, EventType.WRITE] := by
    rintro l (rfl | ⟨cbr, rfl⟩) w (rfl | ⟨cbw, rfl⟩) <;>
      simp only [typesFor, List.filter] <;>
      by_cases hfd : p.1 = fd <;>
        simp [hfd, List.nil_sublist, List.Sublist.refl]
  refine hr _ ?_ _ ?_
  · split
    · split
      · exact Or.inr ⟨_, rfl⟩
      · exact Or.inl rfl
    · exact Or.inl rfl
  · split
    · split
      · exact Or.inr ⟨_, rfl⟩
      · exact Or.inl rfl
    · exact Or.inl rfl

theorem typesFor_collectReady (table : Table) (wfd : Int) (evs : List (Int × Nat)) (fd : Int)
    (hnd : (evs.map Prod.fst).Nodup) :
    List.Sublist (typesFor fd (collectReady table wfd evs)) [EventType.READ, EventType.WRITE] := by
  induction evs with
  | nil => simp [collectReady, typesFor, List.nil_sublist]
  | cons e rest ih =>
    rw [List.map_cons, List.nodup_cons] at hnd
    rw [collectReady, typesFor_append]
    by_cases hfd : e.1 = fd
    · subst hfd
      have hrest : typesFor e.1 (collectReady table wfd rest) = [] := by
        apply typesFor_eq_nil
        intro t ht hteq
        exact hnd.1 (hteq ▸ mem_collectReady_fst table wfd rest t ht)
      rw [hrest, List.append_nil]
      exact typesFor_collectOne table wfd e e.1
    · have hone : typesFor fd (collectOne table wfd e) = [] := by
        apply typesFor_eq_nil
        intro t ht hteq
        exact hfd ((mem_collectOne_fst table wfd e t ht) ▸ hteq)
      rw [hone, List.nil_append]
      exact ih hnd.2

theorem typesFor_collectReadySel (rr ww : List Int) (table : Table) (fd : Int)
    (hnd : (table.map Prod.fst).Nodup) :
    List.Sublist (typesFor fd (collectReadySel rr ww table)) [EventType.READ, EventType.WRITE] := by
  induction table with
  | nil => simp [collectReadySel, typesFor, List.nil_sublist]
  | cons p rest ih =>
    rw [List.map_cons, List.nodup_cons] at hnd
    rw [collectReadySel, typesFor_append]
    by_cases hfd : p.1 = fd
    · subst hfd
      have hrest : typesFor p.1 (collectReadySel rr ww rest) = [] := by
        apply typesFor_eq_nil
        intro t ht hteq
        exact hnd.1 (hteq ▸ mem_collectReadySel_fst rr ww rest t ht)
      rw [hrest, List.append_nil]
      exact typesFor_collectOneSel rr ww p p.1
    · have hone : typesFor fd (collectOneSel rr ww p) = [] := by
        apply typesFor_eq_nil
        intro t ht hteq
        exact hfd ((mem_collectOneSel_fst rr ww p t ht) ▸ hteq)
      rw [hone, List.nil_append]
      exact ih hnd.2

theorem add_fd_registered (s : EpollState) (fd : Int) (ty : EventType) (cb : Cb)
    (ctl : CtlRes) (wk : WriteRes) (h : containsPair s.table fd ty = true) :
    add_fd s fd ty cb ctl wk = ⟨true, s, none⟩ := by
  simp [add_fd, h]

theorem add_fd_sel_registered (t : SelectState) (fd : Int) (ty : EventType) (cb : Cb)
    (wk : WriteRes) (h : containsPair t.table fd ty = true) :
    add_fd_sel t fd ty cb wk = (true, t) := by
  simp [add_fd_sel, h]

theorem containsPair_after_add (s : EpollState) (fd : Int) (ty : EventType) (cb : Cb)
    (wk : WriteRes) :
    containsPair (add_fd s fd ty cb CtlRes.ok wk).state.table fd ty = true := by
  by_cases hp : containsPair s.table fd ty = true
  · simp [add_fd, hp]
  · rw [Bool.not_eq_true] at hp
    cases wk <;> simp [add_fd, hp, wakeupE, containsPair_insertCb]

/-- Claim C10: in both backends, every `stop` call clears the running flag
before attempting the wakeup poke, so after any `stop` call — including one
whose wakeup write fails — `is_running()` is false and the wait-iteration
condition of `start` is false. -/
theorem stop_clears_running_flag (s : EpollState) (t : SelectState) (wk wk' : WriteRes) :
    is_running (stop s wk).2 = false ∧ (stop s wk).2.running = false ∧
    (stop_sel t wk').2.running = false := by
  refine ⟨?_, ?_, ?_⟩
  · unfold is_running stop
    split
    · cases wk <;> rfl
    · rfl
  · unfold stop
    split
    · cases wk <;> rfl
    · rfl
  · unfold stop_sel
    split
    · cases wk' <;> rfl
    · rfl

/-- Claim C4, counterexample: a `stop` issued while the loop is not running
returns success and leaves the flag false, but does NOT write to the wakeup
channel — the wakeup counters stay at 0 in both backends, whereas any write
would have incremented them. -/
theorem stop_not_running_writes_no_wakeup_cex :
    stop (initEpoll 3) WriteRes.ok = (true, initEpoll 3) ∧
    (stop (initEpoll 3) WriteRes.ok).2.wakeupCount = 0 ∧
    stop_sel (initSelect 4) WriteRes.ok = (true, initSelect 4) ∧
    (stop_sel (initSelect 4) WriteRes.ok).2.wakeupPipe = 0 := by
  decide

/-- Claim C4, amended: a `stop` call issued while the loop is not running
leaves the running flag false and returns success, without touching the
wakeup channel (the early return fires before the wakeup write). -/
theorem stop_not_running_noop (s : EpollState) (t : SelectState) (wk wk' : WriteRes)
    (hs : s.running = false) (ht : t.running = false) :
    stop s wk = (true, { s with running := false }) ∧
    stop_sel t wk' = (true, { t with running := false }) := by
  constructor
  · simp [stop, hs]
  · simp [stop_sel, ht]

/-- Claim C4, witness for the amended theorem at a concrete non-running
state. -/
theorem stop_not_running_noop_witness :
    (initEpoll 3).running = false ∧ (initSelect 4).running = false ∧
    (stop (initEpoll 3) WriteRes.ok = (true, { initEpoll 3 with running := false }) ∧
      stop_sel (initSelect 4) WriteRes.ok = (true, { initSelect 4 with running := false })) :=
  ⟨rfl, rfl, stop_not_running_noop (initEpoll 3) (initSelect 4) WriteRes.ok WriteRes.ok rfl rfl⟩

/-- Claim C9: removing a pair that is not in the registration table returns
success and leaves the entire loop state unchanged in both backends — no
table change, no kernel operation, no bitmap or multiset change, and no
wakeup write. -/
theorem remove_fd_unregistered_noop (s : EpollState) (t : SelectState) (fd fd' : Int)
    (ty ty' : EventType) (ctl : CtlRes) (wk wk' : WriteRes)
    (h : containsPair s.table fd ty = false)
    (h' : containsPair t.table fd' ty' = false) :
    remove_fd s fd ty ctl wk = ⟨true, s, none⟩ ∧
    remove_fd_sel t fd' ty' wk' = (true, t) := by
  constructor
  · simp [remove_fd, h]
  · simp [remove_fd_sel, h']

/-- Claim C9, witness: removing a never-registered pair from freshly created
loops is a no-op success. -/
theorem remove_fd_unregistered_noop_witness :
    containsPair (initEpoll 3).table 5 EventType.READ = false ∧
    containsPair (initSelect 4).table 5 EventType.READ = false ∧
    (remove_fd (initEpoll 3) 5 EventType.READ CtlRes.ok WriteRes.ok = ⟨true, initEpoll 3, none⟩ ∧
      remove_fd_sel (initSelect 4) 5 EventType.READ WriteRes.ok = (true, initSelect 4)) :=
  ⟨rfl, rfl,
    remove_fd_unregistered_noop (initEpoll 3) (initSelect 4) 5 5 EventType.READ EventType.READ
      CtlRes.ok WriteRes.ok WriteRes.ok rfl rfl⟩

/-- Claim C8: on the select backend, `add_fd` with a descriptor at or above
`FD_SETSIZE` that is not already registered fails and surfaces `EMFILE`
("too many descriptors") in `errno`, leaving the rest of the state
unchanged. -/
theorem add_fd_sel_over_ceiling (s : SelectState) (fd : Int) (ty : EventType) (cb : Cb)
    (wk : WriteRes) (hfd : (FD_SETSIZE : Int) ≤ fd)
    (h : containsPair s.table fd ty = false) :
    add_fd_sel s fd ty cb wk = (false, { s with errno := EMFILE }) := by
  simp [add_fd_sel, h, hfd]

/-- Claim C8, witness: descriptor 1024 (= `FD_SETSIZE`) on a fresh select
loop. -/
theorem add_fd_sel_over_ceiling_witness :
    ((FD_SETSIZE : Int) ≤ 1024 ∧ containsPair (initSelect 4).table 1024 EventType.READ = false) ∧
    add_fd_sel (initSelect 4) 1024 EventType.READ 7 WriteRes.ok =
      (false, { initSelect 4 with errno := EMFILE }) :=
  ⟨⟨by decide, rfl⟩,
    add_fd_sel_over_ceiling (initSelect 4) 1024 EventType.READ 7 WriteRes.ok (by decide) rfl⟩

/-- Claim C7: an `add_fd` whose `(fd, interest)` pair is already registered
returns success, issues no kernel operation, and leaves the state (table,
callback, kernel registration) unchanged, in both backends; consequently a
second `add_fd` with the same pair right after a first one is observationally
equivalent to the single first `add_fd` and does not replace the callback. -/
theorem add_fd_idempotent (s s2 : EpollState) (t : SelectState) (fd fd' fd2 : Int)
    (ty ty' ty2 : EventType) (cb cb' cb2 cb3 : Cb) (ctl ctl2 : CtlRes)
    (wk wk' wk2 wk3 : WriteRes)
    (h : containsPair s.table fd ty = true) (h' : containsPair t.table fd' ty' = true) :
    add_fd s fd ty cb ctl wk = ⟨true, s, none⟩ ∧
    add_fd_sel t fd' ty' cb' wk' = (true, t) ∧
    add_fd (add_fd s2 fd2 ty2 cb2 CtlRes.ok wk2).state fd2 ty2 cb3 ctl2 wk3 =
      ⟨true, (add_fd s2 fd2 ty2 cb2 CtlRes.ok wk2).state, none⟩ := by
  exact ⟨add_fd_registered s fd ty cb ctl wk h,
    add_fd_sel_registered t fd' ty' cb' wk' h',
    add_fd_registered _ fd2 ty2 cb3 ctl2 wk3 (containsPair_after_add s2 fd2 ty2 cb2 wk2)⟩

/-- Claim C7, witness: with `(5, READ)` already registered, a repeated
`add_fd` (with a different callback token) is a no-op success in both
backends. -/
theorem add_fd_idempotent_witness :
    containsPair [(5, [(EventType.READ, 7)])] 5 EventType.READ = true ∧
    add_fd ⟨[(5, [(EventType.READ, 7)])], [(3, 1), (5, 1)], false, 0, 3⟩
        5 EventType.READ 9 CtlRes.ok WriteRes.ok =
      ⟨true, ⟨[(5, [(EventType.READ, 7)])], [(3, 1), (5, 1)], false, 0, 3⟩, none⟩ :=
  ⟨rfl,
    (add_fd_idempotent ⟨[(5, [(EventType.READ, 7)])], [(3, 1), (5, 1)], false, 0, 3⟩
      (initEpoll 3)
      { initSelect 4 with table := [(5, [(EventType.READ, 7)])], readSet := [4, 5], fds := [4, 5] }
      5 5 6 EventType.READ EventType.READ EventType.READ 9 9 9 9 CtlRes.ok CtlRes.ok
      WriteRes.ok WriteRes.ok WriteRes.ok WriteRes.ok rfl rfl).1⟩

/-- Claim C1, counterexample: with `(5, READ)` the only registration, a
`remove_fd(5, READ)` whose `epoll_ctl` `DELETE` fails returns failure with
the interest already erased from the table — the table is NOT rolled back
(it no longer equals its pre-call value) while the kernel-side registration
still carries descriptor 5. -/
theorem remove_fd_ctl_err_keeps_erase_cex :
    (remove_fd ⟨[(5, [(EventType.READ, 7)])], [(3, 1), (5, 1)], false, 0, 3⟩
        5 EventType.READ CtlRes.err WriteRes.ok).ok = false ∧
    (remove_fd ⟨[(5, [(EventType.READ, 7)])], [(3, 1), (5, 1)], false, 0, 3⟩
        5 EventType.READ CtlRes.err WriteRes.ok).state.table ≠ [(5, [(EventType.READ, 7)])] ∧
    (remove_fd ⟨[(5, [(EventType.READ, 7)])], [(3, 1), (5, 1)], false, 0, 3⟩
        5 EventType.READ CtlRes.err WriteRes.ok).state.kernel = [(3, 1), (5, 1)] := by
  decide

/-- Claim C1, amended: `add_fd` is atomic on `epoll_ctl` failure — the call
returns failure with the whole state unchanged.  `remove_fd` is not: on
`epoll_ctl` failure it returns failure with the interest already erased from
the table and the kernel registrations untouched, so table and kernel
disagree.  A call that fails only at the wakeup write likewise keeps the
completed table mutation. -/
theorem registration_failure_rollback (s s' : EpollState) (fd fd' : Int)
    (ty ty' : EventType) (cb : Cb) (wk wk' : WriteRes) (e : Nat)
    (h1 : containsPair s.table fd ty = false)
    (h2 : containsPair s'.table fd' ty' = true)
    (he : e ≠ EAGAIN) :
    ((add_fd s fd ty cb CtlRes.err wk).ok = false ∧
      (add_fd s fd ty cb CtlRes.err wk).state = s) ∧
    ((remove_fd s' fd' ty' CtlRes.err wk').ok = false ∧
      (remove_fd s' fd' ty' CtlRes.err wk').state.table = eraseTypeAt s'.table fd' ty' ∧
      (remove_fd s' fd' ty' CtlRes.err wk').state.kernel = s'.kernel) ∧
    ((add_fd s fd ty cb CtlRes.ok (WriteRes.err e)).ok = false ∧
      (add_fd s fd ty cb CtlRes.ok (WriteRes.err e)).state.table = insertCb s.table fd ty cb) := by
  refine ⟨⟨?_, ?_⟩, ?_, ⟨?_, ?_⟩⟩
  · simp [add_fd, h1]
  · simp [add_fd, h1]
  · unfold remove_fd
    simp only [h2, Bool.not_true, Bool.false_eq_true, if_false]
    split <;> simp
  · simp [add_fd, h1, wakeupE, he]
  · simp [add_fd, h1, wakeupE]

/-- Claim C1, witness for the amended theorem at concrete states. -/
theorem registration_failure_rollback_witness :
    (containsPair (initEpoll 3).table 5 EventType.READ = false ∧
      containsPair [(5, [(EventType.READ, 7)])] 5 EventType.READ = true ∧
      (9 : Nat) ≠ EAGAIN) ∧
    ((add_fd (initEpoll 3) 5 EventType.READ 7 CtlRes.err WriteRes.ok).ok = false ∧
      (add_fd (initEpoll 3) 5 EventType.READ 7 CtlRes.err WriteRes.ok).state = initEpoll 3) :=
  ⟨⟨rfl, rfl, by decide⟩,
    (registration_failure_rollback (initEpoll 3)
      ⟨[(5, [(EventType.READ, 7)])], [(3, 1), (5, 1)], false, 0, 3⟩
      5 5 EventType.READ EventType.READ 7 WriteRes.ok WriteRes.ok 9
      rfl rfl (by decide)).1⟩

/-- Claim C3, counterexample: a failing `epoll_ctl` `DELETE` in `remove_fd`
leaves descriptor 5 in the table with an empty sub-mapping — the no-empty-
sub-mapping invariant does not survive that failing operation. -/
theorem del_failure_leaves_empty_submap_cex :
    ¬ noEmptySub (remove_fd ⟨[(5, [(EventType.READ, 7)])], [(3, 1), (5, 1)], false, 0, 3⟩
        5 EventType.READ CtlRes.err WriteRes.ok).state.table := by
  decide

/-- Claim C3, amended: every `add_fd` in either backend (any outcome), every
epoll `remove_fd` whose kernel call succeeds, every epoll `remove_fd` whose
failing kernel call was a `MODIFY` (interests remain for the descriptor
after the erase), and every select `remove_fd` preserve the invariant that
each descriptor in the table has at least one registered interest; only an
epoll `remove_fd` whose kernel `DELETE` fails — the last interest was being
removed — leaves an empty per-descriptor sub-mapping behind. -/
theorem no_empty_submap_preserved (s : EpollState) (t : SelectState) (fd fd' : Int)
    (ty ty' : EventType) (cb cb' : Cb) (ctl : CtlRes) (wk wk1 wk2 wk3 : WriteRes)
    (hs : noEmptySub s.table) (ht : noEmptySub t.table) :
    noEmptySub (add_fd s fd ty cb ctl wk).state.table ∧
    noEmptySub (remove_fd s fd ty CtlRes.ok wk1).state.table ∧
    (((lookupFd (eraseTypeAt s.table fd ty) fd).getD []).isEmpty = false →
      noEmptySub (remove_fd s fd ty CtlRes.err wk1).state.table) ∧
    noEmptySub (add_fd_sel t fd' ty' cb' wk2).2.table ∧
    noEmptySub (remove_fd_sel t fd' ty' wk3).2.table := by
  refine ⟨?_, ?_, ?_, ?_, ?_⟩
  · by_cases hp : containsPair s.table fd ty = true
    · simp [add_fd, hp]
      exact hs
    · rw [Bool.not_eq_true] at hp
      cases ctl
      · cases wk <;> simp [add_fd, hp, wakeupE] <;> exact noEmptySub_insertCb _ fd ty cb hs
      · simp [add_fd, hp]
        exact hs
  · by_cases hp : containsPair s.table fd ty = true
    · by_cases hE : ((lookupFd (eraseTypeAt s.table fd ty) fd).getD []).isEmpty = true
      · cases wk1 <;> simp [remove_fd, hp, hE, wakeupE] <;>
          exact noEmptySub_eraseFd_eraseTypeAt s.table fd ty hs
      · rw [Bool.not_eq_true] at hE
        cases wk1 <;> simp [remove_fd, hp, hE, wakeupE] <;>
          exact noEmptySub_eraseTypeAt s.table fd ty hs hE
    · rw [Bool.not_eq_true] at hp
      simp [remove_fd, hp]
      exact hs
  · intro hE
    by_cases hp : containsPair s.table fd ty = true
    · simp [remove_fd, hp, hE]
      exact noEmptySub_eraseTypeAt s.table fd ty hs hE
    · rw [Bool.not_eq_true] at hp
      simp [remove_fd, hp]
      exact hs
  · by_cases hp : containsPair t.table fd' ty' = true
    · simp [add_fd_sel, hp]
      exact ht
    · rw [Bool.not_eq_true] at hp
      by_cases hc : (FD_SETSIZE : Int) ≤ fd'
      · simp [add_fd_sel, hp, hc]
        exact ht
      · cases ty' <;> cases wk2 <;> simp [add_fd_sel, hp, hc, wakeupS] <;>
          exact noEmptySub_insertCb _ fd' _ cb' ht
  · by_cases hp : containsPair t.table fd' ty' = true
    · by_cases hE : ((lookupFd (eraseTypeAt t.table fd' ty') fd').getD []).isEmpty = true
      · cases ty' <;> cases wk3 <;> simp [remove_fd_sel, hp, hE, wakeupS] <;>
          exact noEmptySub_eraseFd_eraseTypeAt t.table fd' _ ht
      · rw [Bool.not_eq_true] at hE
        cases ty' <;> cases wk3 <;> simp [remove_fd_sel, hp, hE, wakeupS] <;>
          exact noEmptySub_eraseTypeAt t.table fd' _ ht hE
    · rw [Bool.not_eq_true] at hp
      simp [remove_fd_sel, hp]
      exact ht

/-- Claim C3, witness for the amended theorem at concrete states, including
the MOD-failure case: descriptor 5 holds READ and WRITE, removing READ with
a failing kernel call leaves the non-empty `{WRITE}` sub-map, so the
invariant survives. -/
theorem no_empty_submap_preserved_witness :
    (noEmptySub (⟨[(5, [(EventType.READ, 7), (EventType.WRITE, 8)])],
        [(3, 1), (5, 5)], false, 0, 3⟩ : EpollState).table ∧
      noEmptySub (initSelect 4).table ∧
      ((lookupFd (eraseTypeAt [(5, [(EventType.READ, 7), (EventType.WRITE, 8)])]
        5 EventType.READ) 5).getD []).isEmpty = false) ∧
    (noEmptySub (add_fd ⟨[(5, [(EventType.READ, 7), (EventType.WRITE, 8)])],
        [(3, 1), (5, 5)], false, 0, 3⟩ 6 EventType.READ 9 CtlRes.ok WriteRes.ok).state.table ∧
      noEmptySub (remove_fd ⟨[(5, [(EventType.READ, 7), (EventType.WRITE, 8)])],
        [(3, 1), (5, 5)], false, 0, 3⟩ 5 EventType.READ CtlRes.err WriteRes.ok).state.table) :=
  ⟨⟨by decide, by decide, by decide⟩,
    (no_empty_submap_preserved ⟨[(5, [(EventType.READ, 7), (EventType.WRITE, 8)])],
        [(3, 1), (5, 5)], false, 0, 3⟩ (initSelect 4) 6 6 EventType.READ EventType.READ
        9 9 CtlRes.ok WriteRes.ok WriteRes.ok WriteRes.ok WriteRes.ok
        (by decide) (by decide)).1,
    (no_empty_submap_preserved ⟨[(5, [(EventType.READ, 7), (EventType.WRITE, 8)])],
        [(3, 1), (5, 5)], false, 0, 3⟩ (initSelect 4) 5 5 EventType.READ EventType.READ
        9 9 CtlRes.ok WriteRes.ok WriteRes.ok WriteRes.ok WriteRes.ok
        (by decide) (by decide)).2.2.1 (by decide)⟩

/-- Claim C2, counterexample: descriptor 5 is registered for READ, and the
wait reports an event for it whose mask carries only the hangup and error
bits (`EPOLLHUP ||| EPOLLERR`, no `EPOLLIN`): the dispatcher collects
nothing, so the registered READ callback is not invoked. -/
theorem hangup_only_event_no_read_cex :
    (5, EventType.READ, 7) ∉
      collectReady [(5, [(EventType.READ, 7)])] 3 [(5, EPOLLHUP ||| EPOLLERR)] ∧
    collectReady [(5, [(EventType.READ, 7)])] 3 [(5, EPOLLHUP ||| EPOLLERR)] = [] := by
  decide

/-- Claim C2, amended: the epoll dispatcher does NOT fold hangup/error bits
into READ readiness — a READ callback is collected for a descriptor only
when some reported event for that descriptor has the readable bit `EPOLLIN`
set in its mask. -/
theorem read_requires_epollin (table : Table) (wfd fd : Int) (cb : Cb)
    (evs : List (Int × Nat))
    (h : (fd, EventType.READ, cb) ∈ collectReady table wfd evs) :
    ∃ m, (fd, m) ∈ evs ∧ m &&& EPOLLIN ≠ 0 := by
  induction evs with
  | nil => simp [collectReady] at h
  | cons e rest ih =>
    rw [collectReady, List.mem_append] at h
    rcases h with h | h
    · obtain ⟨e1, m⟩ := e
      have hfd : fd = e1 := mem_collectOne_fst table wfd (e1, m) _ h
      subst hfd
      unfold collectOne at h
      split at h
      · simp at h
      · split at h
        · simp at h
        · rw [List.mem_append] at h
          rcases h with h | h
          · split at h
            case isTrue hin => exact ⟨m, List.mem_cons_self _ _, hin⟩
            case isFalse hin => simp at h
          · split at h
            · split at h <;> simp at h
            · simp at h
    · obtain ⟨m, hm, hbit⟩ := ih h
      exact ⟨m, List.mem_cons_of_mem e hm, hbit⟩

/-- Claim C2, witness: with READ registered and an event whose mask is
exactly `EPOLLIN`, the collected READ triple indeed traces back to an event
carrying the readable bit. -/
theorem read_requires_epollin_witness :
    (5, EventType.READ, 7) ∈ collectReady [(5, [(EventType.READ, 7)])] 3 [(5, 1)] ∧
    ∃ m, ((5 : Int), m) ∈ [((5 : Int), (1 : Nat))] ∧ m &&& EPOLLIN ≠ 0 :=
  ⟨by decide, read_requires_epollin [(5, [(EventType.READ, 7)])] 3 5 7 [(5, 1)] (by decide)⟩

theorem add_events_eq_fdMask (s : EpollState) (fd : Int) (ty : EventType) (cb : Cb)
    (h : containsPair s.table fd ty = false) :
    (match lookupFd s.table fd with
      | some subs => maskOf subs
      | none => 0) ||| typeBit ty = fdMask (insertCb s.table fd ty cb) fd := by
  have hsub : subContains ((lookupFd s.table fd).getD []) ty = false := by
    unfold containsPair at h
    cases hl : lookupFd s.table fd with
    | none => simp [subContains, subLookup]
    | some subs =>
      rw [hl] at h
      simpa using h
  rw [fdMask, lookupFd_insertCb, Option.getD_some,
    subInsert_of_not_contains _ _ _ hsub, maskOf_append]
  congr 1
  cases hl : lookupFd s.table fd <;> simp [maskOf]

/-- Claim C5: in the epoll backend, the `epoll_ctl` transition issued by
`add_fd` / `remove_fd` carries a mask recomputed as the OR of all interests
remaining in the (updated) table for the descriptor, and the operation is
`ADD` when the descriptor was absent, `MODIFY` when it was present, and
`DELETE` with a null payload when the last interest is removed (remaining
mask zero). -/
theorem epoll_mask_transitions (s : EpollState) (fd : Int) (ty : EventType) (cb : Cb)
    (ctl : CtlRes) (wk : WriteRes) :
    (containsPair s.table fd ty = false →
      (add_fd s fd ty cb ctl wk).ctlIssued =
        some (if containsFd s.table fd
          then EpollCtl.mod fd (fdMask (insertCb s.table fd ty cb) fd)
          else EpollCtl.add fd (fdMask (insertCb s.table fd ty cb) fd))) ∧
    (containsPair s.table fd ty = true →
      (remove_fd s fd ty ctl wk).ctlIssued =
        some (if fdMask (eraseTypeAt s.table fd ty) fd = 0
          then EpollCtl.del fd
          else EpollCtl.mod fd (fdMask (eraseTypeAt s.table fd ty) fd))) := by
  constructor
  · intro h
    have hm := add_events_eq_fdMask s fd ty cb h
    by_cases hc : containsFd s.table fd = true
    · cases ctl <;> cases wk <;> simp [add_fd, h, hc, wakeupE, hm]
    · rw [Bool.not_eq_true] at hc
      cases ctl <;> cases wk <;> simp [add_fd, h, hc, wakeupE, hm]
  · intro h
    have hiff : (fdMask (eraseTypeAt s.table fd ty) fd = 0) ↔
        ((lookupFd (eraseTypeAt s.table fd ty) fd).getD []).isEmpty = true := by
      rw [fdMask, maskOf_eq_zero_iff]
      simp
    by_cases hE : ((lookupFd (eraseTypeAt s.table fd ty) fd).getD []).isEmpty = true
    · have h0 : fdMask (eraseTypeAt s.table fd ty) fd = 0 := hiff.mpr hE
      cases ctl <;> cases wk <;> simp [remove_fd, h, hE, h0, wakeupE]
    · rw [Bool.not_eq_true] at hE
      have h0 : ¬ fdMask (eraseTypeAt s.table fd ty) fd = 0 := by
        intro hh
        rw [hiff] at hh
        rw [hE] at hh
        exact Bool.false_ne_true hh
      have h0m : ¬ maskOf ((lookupFd (eraseTypeAt s.table fd ty) fd).getD []) = 0 := h0
      cases ctl <;> cases wk <;> simp [remove_fd, h, hE, h0m, wakeupE, fdMask]

/-- Claim C5, witness: adding WRITE to a descriptor already registered for
READ issues `MODIFY` with mask `EPOLLIN ||| EPOLLOUT`, and removing the last
interest of another descriptor issues `DELETE`. -/
theorem epoll_mask_transitions_witness :
    (containsPair [(5, [(EventType.READ, 7)])] 5 EventType.WRITE = false ∧
      (add_fd ⟨[(5, [(EventType.READ, 7)])], [(3, 1), (5, 1)], false, 0, 3⟩
          5 EventType.WRITE 8 CtlRes.ok WriteRes.ok).ctlIssued =
        some (if containsFd [(5, [(EventType.READ, 7)])] 5
          then EpollCtl.mod 5 (fdMask (insertCb [(5, [(EventType.READ, 7)])] 5 EventType.WRITE 8) 5)
          else EpollCtl.add 5
            (fdMask (insertCb [(5, [(EventType.READ, 7)])] 5 EventType.WRITE 8) 5))) ∧
    (add_fd ⟨[(5, [(EventType.READ, 7)])], [(3, 1), (5, 1)], false, 0, 3⟩
        5 EventType.WRITE 8 CtlRes.ok WriteRes.ok).ctlIssued = some (EpollCtl.mod 5 5) :=
  ⟨⟨rfl,
    (epoll_mask_transitions ⟨[(5, [(EventType.READ, 7)])], [(3, 1), (5, 1)], false, 0, 3⟩
      5 EventType.WRITE 8 CtlRes.ok WriteRes.ok).1 rfl⟩,
   by decide⟩

/-- Claim C6: within one dispatch batch, callbacks are invoked in exactly
the order collected (the `ready_events` list is traversed front to back),
and for any single descriptor the dispatched event types form a sublist of
`[READ, WRITE]` — READ, when present, is invoked before WRITE — in both
backends (epoll reports each descriptor at most once per batch; the select
table has unique keys). -/
theorem dispatch_read_before_write (table : Table) (wfd : Int) (evs : List (Int × Nat))
    (rr ww : List Int) (fd fd' : Int)
    (hevs : (evs.map Prod.fst).Nodup) (htbl : (table.map Prod.fst).Nodup) :
    List.Sublist (typesFor fd (collectReady table wfd evs)) [EventType.READ, EventType.WRITE] ∧
    List.Sublist (typesFor fd' (collectReadySel rr ww table)) [EventType.READ, EventType.WRITE] :=
  ⟨typesFor_collectReady table wfd evs fd hevs,
   typesFor_collectReadySel rr ww table fd' htbl⟩

/-- Claim C6, witness: a batch in which descriptor 5 is ready for both
interests dispatches its READ before its WRITE in both backends. -/
theorem dispatch_read_before_write_witness :
    ((([((5 : Int), (5 : Nat)), (6, 1)]).map Prod.fst).Nodup ∧
      (([((5 : Int), [(EventType.READ, 7), (EventType.WRITE, 8)])] : Table).map Prod.fst).Nodup) ∧
    (List.Sublist
        (typesFor 5 (collectReady [(5, [(EventType.READ, 7), (EventType.WRITE, 8)])] 3
          [(5, 5), (6, 1)]))
        [EventType.READ, EventType.WRITE] ∧
      List.Sublist
        (typesFor 5 (collectReadySel [5] [5] [(5, [(EventType.READ, 7), (EventType.WRITE, 8)])]))
        [EventType.READ, EventType.WRITE]) :=
  ⟨⟨by decide, by decide⟩,
    dispatch_read_before_write [(5, [(EventType.READ, 7), (EventType.WRITE, 8)])] 3
      [(5, 5), (6, 1)] [5] [5] 5 5 (by decide) (by decide)⟩

end Loopp

